import Mathlib

set_option maxRecDepth 8000

/-
Verification of the morango sync client (`morango/syncsession.py`) against its
natural-language specification.  The Python code is shallowly embedded: pure
fragments become Lean functions, the stateful client becomes explicit state
passing over a `ClientState` record, HTTP calls are recorded in a trace and
their results supplied by an environment/oracle, and Python exceptions become
`Except` errors.
-/

deriving instance DecidableEq for Except

namespace Morango

/-- Error kinds raised by the embedded code.  `noneDereference` models a Python
`AttributeError` from accessing an attribute of `None`; `outOfFuel` models
nontermination of a `while` loop (reachable only for `chunk_size = 0`). -/
inductive Err
  | httpError
  | connectionError
  | noneDereference
  | morangoError
  | certSignatureInvalid
  | typeError
  | outOfFuel
  deriving DecidableEq

/-- Failure mode of a network call as seen by the client code: a non-2xx HTTP
response (`requests.HTTPError`) or a transport-level connection failure. -/
inductive NetErr
  | http
  | conn
  deriving DecidableEq

/-! ## Transport (`NetworkSyncConnection._request`, lines 65-104)

The network is an oracle `net : Nat → NetOutcome` giving the outcome of the
i-th attempt (0-indexed).  Following the source's own comment on
`raise_for_status` ("if any other status code besides 2XX, raise an
exception"), a response raises iff its status is not 2xx.  The function
returns the result together with the list of sleeps performed (in seconds),
in order. -/

/-- Outcome of a single network attempt: connection-level failure (caught and
retried by the source) or a response with a status code and a body. -/
inductive NetOutcome
  | connFail
  | resp (status : Nat) (body : Nat)
  deriving DecidableEq

/-- Result of `_request`: the returned response, an `HTTPError` raised by
`raise_for_status`, or a `ConnectionError` after exhausting all retries. -/
inductive ReqResult
  | ok (status : Nat) (body : Nat)
  | httpError (status : Nat)
  | connectionError
  deriving DecidableEq

/-- Status codes treated as success by `raise_for_status`. -/
def is2xx (s : Nat) : Bool := 200 ≤ s && s < 300

/-- Retry loop of `_request` (lines 92-104): `i` is the index of the next
attempt, `fuel` the number of attempts still allowed.  On a connection
failure the loop sleeps `timeout * i` seconds and retries; a response exits
the loop (returned if 2xx, raised otherwise); when all `max_retries`
attempts failed, `ConnectionError` is raised. -/
def requestAux (net : Nat → NetOutcome) (timeout : Nat) : Nat → Nat → ReqResult × List Nat
  | _, 0 => (.connectionError, [])
  | i, fuel + 1 =>
    match net i with
    | .connFail =>
      let r := requestAux net timeout (i + 1) fuel
      (r.1, timeout * i :: r.2)
    | .resp s b => if is2xx s then (.ok s b, []) else (.httpError s, [])

/-- `NetworkSyncConnection._request` with default-style parameters made
explicit: attempts start at index 0 with `maxRetries` attempts allowed. -/
def request (net : Nat → NetOutcome) (timeout maxRetries : Nat) : ReqResult × List Nat :=
  requestAux net timeout 0 maxRetries

/-! ## Controller construction (`SyncClient.__init__`, lines 247-253) -/

/-- Chunk-size validation in `SyncClient.__init__`: raises `MorangoError`
("Chunk size must be evenly divisible by 100.") iff `chunk_size % 100 != 0`.
`chunkSize` is an `Int` with Python `%` semantics (`Int.emod` agrees with
Python on nonnegative modulus). -/
def clientInit (chunkSize : Int) : Except Err Unit :=
  if chunkSize % 100 ≠ 0 then .error .morangoError else .ok ()

/-! ## server_fsic fallback (lines 281 and 325) -/

/-- Value of a `response.json().get(...)` lookup for a string-typed field:
absent (`None`) or a string. -/
inductive PyStr
  | noneV
  | str (s : String)
  deriving DecidableEq

/-- Python truthiness of such a value: `None` and the empty string are falsy. -/
def PyStr.truthy : PyStr → Bool
  | .noneV => false
  | .str s => !s.isEmpty

/-- The literal empty JSON object stored as the fallback. -/
def jsonEmptyObject : String := "\x7b\x7d"

/-- Embedding of `response.json().get('server_fsic') or '\x7b\x7d'`:
any falsy value is replaced by the empty JSON object. -/
def fsicOrDefault (v : PyStr) : String :=
  match v with
  | .noneV => jsonEmptyObject
  | .str s => if s.isEmpty then jsonEmptyObject else s

/-! ## Chunk cursors

`records_transferred` evolution of the two chunk loops, extracted as pure
functions over the numbers involved. -/

/-- Successive persisted values of `records_transferred` in the pull loop
(`_pull_records`, lines 408-433): while `rt < total`, a chunk is requested
and the cursor advances by the full `chunk` (line 432), even when the final
chunk was smaller.  `fuel` bounds the iterations (the loop itself does not
terminate for `chunk = 0`). -/
def pullCursors (chunk total : Nat) : Nat → Nat → List Nat
  | 0, _ => []
  | fuel + 1, rt =>
    if rt < total then (rt + chunk) :: pullCursors chunk total fuel (rt + chunk) else []

/-- Ceiling division as computed by `int(ceil(a / float(b)))` for naturals. -/
def ceilDiv (a b : Nat) : Nat := (a + b - 1) / b

/-- Number of pages of a Django `Paginator` over `count` objects with
`per` objects per page (`allow_empty_first_page` defaults to true, so an
empty object list still has one page). -/
def numPages (count per : Nat) : Nat := if count = 0 then 1 else ceilDiv count per

/-- Successive persisted values of `records_transferred` in the push loop
(`_push_records`, lines 435-457): one advance of `chunk` per page sent
(line 456), starting from cursor `rt`, for `n` pages. -/
def pushCursorsAux (chunk : Nat) : Nat → Nat → List Nat
  | 0, _ => []
  | n + 1, rt => (rt + chunk) :: pushCursorsAux chunk n (rt + chunk)

/-- Cursor values produced by `_push_records` over `count` buffered records
with page size `chunk`, resuming from cursor `rt0`: the page range runs from
`ceil(rt0 / chunk) + 1` to `num_pages` inclusive (lines 442-443). -/
def pushCursors (count chunk rt0 : Nat) : List Nat :=
  pushCursorsAux chunk (numPages count chunk + 1 - (ceilDiv rt0 chunk + 1)) rt0

/-! ## Data model

`TransferSession` rows, `Buffer` rows and the client/database state.  Model
defaults for row creation (`active = true`, `records_transferred = 0`,
`records_total` unset) follow the spec's data-model section, since
`morango/models.py` is not part of the sources. -/

/-- Transfer stages (`morango.constants.transfer_status`). -/
inductive Stage
  | queuing
  | pushing
  | pulling
  | dequeuing
  | completed
  deriving DecidableEq

/-- A `TransferSession` row. -/
structure TS where
  id : Nat
  filterStr : String
  push : Bool
  active : Bool
  records_total : Option Nat
  records_transferred : Nat
  stage : Stage
  server_fsic : String
  client_fsic : String
  deriving DecidableEq

/-- A `Buffer` row: the owning transfer session and the primary key used for
ordering in `_push_records`; the record payload itself is opaque. -/
structure BufferRow where
  tsId : Nat
  pk : Nat
  deriving DecidableEq

/-- The client plus its local database: the owning `SyncSession` (id and
active flag), the `current_transfer_session` slot, the session's
`transfersession_set`, the `Buffer` and `RecordMaxCounterBuffer` tables
(the latter abstracted to its owning transfer-session ids), and the
configured chunk size. -/
structure ClientState where
  ssId : Nat
  ssActive : Bool
  chunkSize : Nat
  current : Option TS
  tsRows : List TS
  bufRows : List BufferRow
  rmcbRows : List Nat
  deriving DecidableEq

/-- Outgoing HTTP requests issued by the client, as recorded in a trace. -/
inductive Request
  | postTransferSession
  | patchTransferSession (total : Option Nat)
  | deleteTransferSession (tsId : Nat)
  | postBuffers (pks : List Nat)
  | getBuffers (limit offset : Nat)
  | deleteSyncSession (ssId : Nat)
  deriving DecidableEq

/-- Body of a successful `POST /transfersessions` response, as read by the
client (`server_fsic` and `records_total` lookups). -/
structure CreateTransferResp where
  server_fsic : PyStr
  records_total : Option Nat
  deriving DecidableEq

/-- Environment: results the peer and the external Store Engine supply.
`queuedPks` are the primary keys of the `Buffer` rows produced by
`_queue_into_buffer` (Store Engine, external); `getBuffersResult` is indexed
by the pull-chunk number, `postBuffersResult` by the page number. -/
structure Env where
  clientFsic : String
  queuedPks : List Nat
  createTransferResult : Except NetErr CreateTransferResp
  patchResult : Except NetErr Unit
  postBuffersResult : Nat → Except NetErr Unit
  getBuffersResult : Nat → Except NetErr (List Nat)
  deleteTransferResult : Except NetErr Unit
  deleteSyncResult : Except NetErr Unit

/-- Result of running a client operation: the requests issued (in order), the
final local state, and the value returned or the exception propagated. -/
structure Outcome (α : Type) where
  trace : List Request
  state : ClientState
  result : Except Err α

/-- Persist a mutated `TransferSession` object (`.save()`): replace the row
with the same id. -/
def saveTS (rows : List TS) (t : TS) : List TS :=
  rows.map (fun r => if r.id = t.id then t else r)

/-- Assign `self.current_transfer_session` to a freshly created row
(`TransferSession.objects.create`). -/
def createTS (st : ClientState) (t : TS) : ClientState :=
  { st with current := some t, tsRows := st.tsRows ++ [t] }

/-- The `data` dict built by `_generate_transfer_session_data`
(lines 471-488), minus the timestamp.  The Store Engine calls
(`_serialize_into_store`, `calculate_filter_max_counters`) are external;
their output is `env.clientFsic`. -/
structure TransferData where
  tsId : Nat
  filterStr : String
  pushFlag : Bool
  client_fsic : String
  deriving DecidableEq

/-- `self.sync_session.transfersession_set.filter(filter=...).filter(active=True).filter(push=...)`
(line 258). -/
def matchingTransfers (st : ClientState) (flt : String) (pushFlag : Bool) : List TS :=
  st.tsRows.filter (fun t => t.filterStr == flt && t.active && t.push == pushFlag)

/-- `SyncClient._close_transfer_session` (lines 490-504): DELETE the transfer
session on the server; on `HTTPError` mark it locally inactive and re-raise;
on success mark it inactive and completed and clear the current slot.  With
no current transfer session the attribute access on `None` fails. -/
def closeTransfer (st : ClientState) (env : Env) : Outcome Unit :=
  match st.current with
  | none => ⟨[], st, .error .noneDereference⟩
  | some c =>
    match env.deleteTransferResult with
    | .error .http =>
      let c' := { c with active := false }
      ⟨[.deleteTransferSession c.id],
       { st with current := some c', tsRows := saveTS st.tsRows c' }, .error .httpError⟩
    | .error .conn =>
      ⟨[.deleteTransferSession c.id], st, .error .connectionError⟩
    | .ok _ =>
      let c' := { c with active := false, stage := .completed }
      ⟨[.deleteTransferSession c.id],
       { st with current := none, tsRows := saveTS st.tsRows c' }, .ok ()⟩

/-- Error to propagate from an `except requests.HTTPError` handler that calls
`_close_transfer_session()` and then re-raises: if the close itself raised,
its exception wins, otherwise the original `HTTPError`. -/
def closeErr (o : Outcome Unit) : Err :=
  match o.result with
  | .error e => e
  | .ok _ => .httpError

/-- `SyncClient._starting` (lines 255-306).  `newId` stands for the
`uuid.uuid4().hex` drawn for a fresh transfer session.  On a resumed push,
every other active transfer session of this sync session is deactivated
(line 265) and the buffered rows of every other transfer session of this
sync session are purged (line 267; `Buffer.objects.delete(...)` is a manager
defined in `morango/models.py`, absent from the sources — modelled from the
spec: resumed pushes purge the other transfer sessions' buffered rows).  On
a fresh push the server round-trip happens first, and the `HTTPError`
handler dereferences `self.current_transfer_session` before it was ever
assigned (lines 275-278). -/
def starting (st : ClientState) (flt : String) (pushFlag : Bool) (newId : Nat) (env : Env) :
    Outcome (Option TransferData) :=
  if pushFlag then
    match matchingTransfers st flt true with
    | t :: _ =>
      let deactivated := st.tsRows.map
        (fun r => if r.active && !(r.id == t.id) then { r with active := false } else r)
      let otherIds := (st.tsRows.filter (fun r => !(r.id == t.id))).map (·.id)
      let bufs := st.bufRows.filter (fun b => !(otherIds.contains b.tsId))
      ⟨[], { st with current := some t, tsRows := deactivated, bufRows := bufs }, .ok none⟩
    | [] =>
      let d : TransferData :=
        { tsId := newId, filterStr := flt, pushFlag := true, client_fsic := env.clientFsic }
      match env.createTransferResult with
      | .error .http =>
        match st.current with
        | none => ⟨[.postTransferSession], st, .error .noneDereference⟩
        | some c =>
          let c' := { c with active := false }
          ⟨[.postTransferSession],
           { st with current := some c', tsRows := saveTS st.tsRows c' }, .error .httpError⟩
      | .error .conn => ⟨[.postTransferSession], st, .error .connectionError⟩
      | .ok resp =>
        let t : TS :=
          { id := newId, filterStr := flt, push := true, active := true,
            records_total := none, records_transferred := 0, stage := .queuing,
            server_fsic := fsicOrDefault resp.server_fsic, client_fsic := env.clientFsic }
        ⟨[.postTransferSession], createTS st t, .ok (some d)⟩
  else
    match matchingTransfers st flt false with
    | t :: _ =>
      let d : TransferData :=
        { tsId := t.id, filterStr := t.filterStr, pushFlag := t.push, client_fsic := t.client_fsic }
      ⟨[], { st with current := some t }, .ok (some d)⟩
    | [] =>
      let d : TransferData :=
        { tsId := newId, filterStr := flt, pushFlag := false, client_fsic := env.clientFsic }
      let t : TS :=
        { id := newId, filterStr := flt, push := false, active := true,
          records_total := none, records_transferred := 0, stage := .queuing,
          server_fsic := "", client_fsic := env.clientFsic }
      ⟨[], createTS st t, .ok (some d)⟩

/-- `SyncClient._queuing` (lines 308-328).  Push: the Store Engine fills the
buffer (`env.queuedPks`), `records_total` is the count of `Buffer` rows of
this transfer session, stage becomes `pushing`.  Pull: `POST
/transfersessions`; on `HTTPError` deactivate and re-raise; otherwise store
`server_fsic` (with the falsy fallback) and `records_total` and set stage
`pulling`. -/
def queuing (st : ClientState) (pushFlag : Bool) (env : Env) : Outcome Unit :=
  match st.current with
  | none => ⟨[], st, .error .noneDereference⟩
  | some c =>
    if pushFlag then
      let bufs := st.bufRows ++ env.queuedPks.map (fun p => ⟨c.id, p⟩)
      let total := (bufs.filter (fun b => b.tsId == c.id)).length
      let c' := { c with records_total := some total, stage := .pushing }
      ⟨[], { st with bufRows := bufs, current := some c', tsRows := saveTS st.tsRows c' }, .ok ()⟩
    else
      match env.createTransferResult with
      | .error .http =>
        let c' := { c with active := false }
        ⟨[.postTransferSession],
         { st with current := some c', tsRows := saveTS st.tsRows c' }, .error .httpError⟩
      | .error .conn => ⟨[.postTransferSession], st, .error .connectionError⟩
      | .ok resp =>
        let c' := { c with server_fsic := fsicOrDefault resp.server_fsic,
                           records_total := resp.records_total, stage := .pulling }
        ⟨[.postTransferSession],
         { st with current := some c', tsRows := saveTS st.tsRows c' }, .ok ()⟩

/-! ## Chunked exchanger -/

/-- Insert a buffer row into a pk-sorted list. -/
def insertByPk (b : BufferRow) : List BufferRow → List BufferRow
  | [] => [b]
  | c :: cs => if b.pk ≤ c.pk then b :: c :: cs else c :: insertByPk b cs

/-- Sort buffer rows by primary key (`order_by('pk')`, line 438). -/
def sortByPk : List BufferRow → List BufferRow
  | [] => []
  | b :: bs => insertByPk b (sortByPk bs)

/-- Object list of page `page` of a Django `Paginator` over `objs` with
`per` objects per page (pages are 1-indexed). -/
def pagePks (objs : List Nat) (per page : Nat) : List Nat :=
  (objs.drop ((page - 1) * per)).take per

/-- Page loop of `_push_records` (lines 445-457): for each page number, POST
the page's records; on `HTTPError` close the transfer session and re-raise;
on success advance `records_transferred` by the chunk size and persist. -/
def pushPages (env : Env) (per : Nat) (pks : List Nat) :
    List Nat → ClientState → Outcome Unit
  | [], st => ⟨[], st, .ok ()⟩
  | k :: ks, st =>
    match st.current with
    | none => ⟨[], st, .error .noneDereference⟩
    | some c =>
      let page := pagePks pks per k
      match env.postBuffersResult k with
      | .error .http =>
        let cl := closeTransfer st env
        ⟨.postBuffers page :: cl.trace, cl.state, .error (closeErr cl)⟩
      | .error .conn => ⟨[.postBuffers page], st, .error .connectionError⟩
      | .ok _ =>
        let c' := { c with records_transferred := c.records_transferred + per }
        let st' := { st with current := some c', tsRows := saveTS st.tsRows c' }
        let rest := pushPages env per pks ks st'
        ⟨.postBuffers page :: rest.trace, rest.state, rest.result⟩

/-- `SyncClient._push_records` (lines 435-457): paginate the buffered records
of the current transfer session ordered by pk, starting from page
`ceil(records_transferred / chunk_size) + 1` up to `num_pages`. -/
def pushRecords (st : ClientState) (env : Env) : Outcome Unit :=
  match st.current with
  | none => ⟨[], st, .error .noneDereference⟩
  | some c =>
    let sorted := (sortByPk (st.bufRows.filter (fun b => b.tsId == c.id))).map (·.pk)
    let np := numPages sorted.length st.chunkSize
    let p0 := ceilDiv c.records_transferred st.chunkSize + 1
    pushPages env st.chunkSize sorted (List.range' p0 (np + 1 - p0)) st

/-- `SyncClient._pushing` (lines 330-344): PATCH `records_total` to the
server (on `HTTPError`: close and re-raise), push all records, then delete
the `Buffer` and `RecordMaxCounterBuffer` rows of this transfer session and
set stage `dequeuing`. -/
def pushing (st : ClientState) (env : Env) : Outcome Unit :=
  match st.current with
  | none => ⟨[], st, .error .noneDereference⟩
  | some c =>
    match env.patchResult with
    | .error .http =>
      let cl := closeTransfer st env
      ⟨.patchTransferSession c.records_total :: cl.trace, cl.state, .error (closeErr cl)⟩
    | .error .conn =>
      ⟨[.patchTransferSession c.records_total], st, .error .connectionError⟩
    | .ok _ =>
      let pr := pushRecords st env
      match pr.result with
      | .error e => ⟨.patchTransferSession c.records_total :: pr.trace, pr.state, .error e⟩
      | .ok _ =>
        match pr.state.current with
        | none => ⟨.patchTransferSession c.records_total :: pr.trace, pr.state,
                   .error .noneDereference⟩
        | some c2 =>
          let bufs := pr.state.bufRows.filter (fun b => !(b.tsId == c2.id))
          let rmcb := pr.state.rmcbRows.filter (fun x => !(x == c2.id))
          let c' := { c2 with stage := .dequeuing }
          ⟨.patchTransferSession c.records_total :: pr.trace,
           { pr.state with bufRows := bufs, rmcbRows := rmcb,
                           current := some c', tsRows := saveTS pr.state.tsRows c' }, .ok ()⟩

/-- Chunk loop of `_pull_records` (lines 409-433): while
`records_transferred < records_total`, GET a chunk (on `HTTPError`: close
and re-raise), save the returned rows into the local buffer table, then
advance `records_transferred` by the full chunk size and persist.  `idx`
numbers the GET requests for the environment; `fuel` bounds the iterations
(the source loop never terminates for `chunk = 0`). -/
def pullChunks (env : Env) (chunk total : Nat) : Nat → Nat → ClientState → Outcome Unit
  | fuel, idx, st =>
    match st.current with
    | none => ⟨[], st, .error .noneDereference⟩
    | some c =>
      if c.records_transferred < total then
        match fuel with
        | 0 => ⟨[], st, .error .outOfFuel⟩
        | fuel' + 1 =>
          match env.getBuffersResult idx with
          | .error .http =>
            let cl := closeTransfer st env
            ⟨.getBuffers chunk c.records_transferred :: cl.trace, cl.state, .error (closeErr cl)⟩
          | .error .conn =>
            ⟨[.getBuffers chunk c.records_transferred], st, .error .connectionError⟩
          | .ok pks =>
            let c' := { c with records_transferred := c.records_transferred + chunk }
            let st' := { st with bufRows := st.bufRows ++ pks.map (fun p => ⟨c.id, p⟩),
                                 current := some c', tsRows := saveTS st.tsRows c' }
            let rest := pullChunks env chunk total fuel' (idx + 1) st'
            ⟨.getBuffers chunk c.records_transferred :: rest.trace, rest.state, rest.result⟩
      else ⟨[], st, .ok ()⟩

/-- `SyncClient._pull_records` (lines 408-433).  Comparing the cursor against
an unset `records_total` would be a Python `TypeError`. -/
def pullRecords (st : ClientState) (env : Env) : Outcome Unit :=
  match st.current with
  | none => ⟨[], st, .error .noneDereference⟩
  | some c =>
    match c.records_total with
    | none => ⟨[], st, .error .typeError⟩
    | some total => pullChunks env st.chunkSize total (total + 1) 0 st

/-- `SyncClient._pulling` (lines 346-354): pull all records (an `HTTPError`
escaping `_pull_records` triggers a second `_close_transfer_session`, whose
current slot is already empty), then set stage `dequeuing`. -/
def pulling (st : ClientState) (env : Env) : Outcome Unit :=
  let pr := pullRecords st env
  match pr.result with
  | .error .httpError =>
    let cl := closeTransfer pr.state env
    ⟨pr.trace ++ cl.trace, cl.state, .error (closeErr cl)⟩
  | .error e => ⟨pr.trace, pr.state, .error e⟩
  | .ok _ =>
    match pr.state.current with
    | none => ⟨pr.trace, pr.state, .error .noneDereference⟩
    | some c =>
      let c' := { c with stage := .dequeuing }
      ⟨pr.trace, { pr.state with current := some c', tsRows := saveTS pr.state.tsRows c' }, .ok ()⟩

/-- `SyncClient.initiate_push` (lines 364-380): run `_starting`, `_queuing`
when the stage is `queuing`, short-circuit close when `records_total == 0`,
`_pushing` when the stage is `pushing`, and `_dequeuing` (which for a push
is `_close_transfer_session`) when the stage is `dequeuing`. -/
def initiatePush (st : ClientState) (flt : String) (newId : Nat) (env : Env) : Outcome Unit :=
  let s1 := starting st flt true newId env
  match s1.result with
  | .error e => ⟨s1.trace, s1.state, .error e⟩
  | .ok _ =>
    match s1.state.current with
    | none => ⟨s1.trace, s1.state, .error .noneDereference⟩
    | some c1 =>
      let q : Outcome Unit :=
        if c1.stage = Stage.queuing then queuing s1.state true env else ⟨[], s1.state, .ok ()⟩
      match q.result with
      | .error e => ⟨s1.trace ++ q.trace, q.state, .error e⟩
      | .ok _ =>
        match q.state.current with
        | none => ⟨s1.trace ++ q.trace, q.state, .error .noneDereference⟩
        | some c2 =>
          if c2.records_total = some 0 then
            let cl := closeTransfer q.state env
            ⟨s1.trace ++ q.trace ++ cl.trace, cl.state, cl.result⟩
          else
            let p : Outcome Unit :=
              if c2.stage = Stage.pushing then pushing q.state env else ⟨[], q.state, .ok ()⟩
            match p.result with
            | .error e => ⟨s1.trace ++ q.trace ++ p.trace, p.state, .error e⟩
            | .ok _ =>
              match p.state.current with
              | none => ⟨s1.trace ++ q.trace ++ p.trace, p.state, .error .noneDereference⟩
              | some c3 =>
                if c3.stage = Stage.dequeuing then
                  let cl := closeTransfer p.state env
                  ⟨s1.trace ++ q.trace ++ p.trace ++ cl.trace, cl.state, cl.result⟩
                else ⟨s1.trace ++ q.trace ++ p.trace, p.state, .ok ()⟩

/-- `SyncClient.initiate_pull` (lines 382-406): run `_starting`, `_queuing`
when the stage is `queuing`, short-circuit close when `records_total == 0`,
`_pulling` when the stage is `pulling`, `_dequeue_into_store` (external
Store Engine, a no-op here) when the stage is `dequeuing`, update the local
database max counters (external), and finally close the transfer session. -/
def initiatePull (st : ClientState) (flt : String) (newId : Nat) (env : Env) : Outcome Unit :=
  let s1 := starting st flt false newId env
  match s1.result with
  | .error e => ⟨s1.trace, s1.state, .error e⟩
  | .ok _ =>
    match s1.state.current with
    | none => ⟨s1.trace, s1.state, .error .noneDereference⟩
    | some c1 =>
      let q : Outcome Unit :=
        if c1.stage = Stage.queuing then queuing s1.state false env else ⟨[], s1.state, .ok ()⟩
      match q.result with
      | .error e => ⟨s1.trace ++ q.trace, q.state, .error e⟩
      | .ok _ =>
        match q.state.current with
        | none => ⟨s1.trace ++ q.trace, q.state, .error .noneDereference⟩
        | some c2 =>
          if c2.records_total = some 0 then
            let cl := closeTransfer q.state env
            ⟨s1.trace ++ q.trace ++ cl.trace, cl.state, cl.result⟩
          else
            let p : Outcome Unit :=
              if c2.stage = Stage.pulling then pulling q.state env else ⟨[], q.state, .ok ()⟩
            match p.result with
            | .error e => ⟨s1.trace ++ q.trace ++ p.trace, p.state, .error e⟩
            | .ok _ =>
              let cl := closeTransfer p.state env
              ⟨s1.trace ++ q.trace ++ p.trace ++ cl.trace, cl.state, cl.result⟩

/-- `SyncClient.close_sync_session` (lines 459-469): the `DELETE
/syncsessions/{id}` request is issued first; only afterwards is
`current_transfer_session` checked, raising `MorangoError` ("Transfer
Session must be closed before closing sync session.") and leaving the local
sync session active; otherwise the local sync session is deactivated. -/
def closeSyncSession (st : ClientState) (env : Env) : Outcome Unit :=
  match env.deleteSyncResult with
  | .error .http => ⟨[.deleteSyncSession st.ssId], st, .error .httpError⟩
  | .error .conn => ⟨[.deleteSyncSession st.ssId], st, .error .connectionError⟩
  | .ok _ =>
    match st.current with
    | some _ => ⟨[.deleteSyncSession st.ssId], st, .error .morangoError⟩
    | none => ⟨[.deleteSyncSession st.ssId], { st with ssActive := false }, .ok ()⟩

/-! ## Session negotiator (`NetworkSyncConnection.create_sync_session`,
lines 106-168) -/

/-- Requests issued during session negotiation. -/
inductive NegoReq
  | getCertChain
  | postNonce
  | postSyncSession
  deriving DecidableEq

/-- Environment of one `create_sync_session` call: whether an active matching
local `SyncSession` exists (line 107), whether the server certificate is
already stored locally (line 113), the nonce the peer hands out, the
signature in the peer's `POST /syncsessions` response, and the abstract
`server_cert.verify` primitive (external Certificate Authority). -/
structure NegoEnv where
  activeSessionExists : Bool
  serverCertKnown : Bool
  nonce : String
  respSignature : String
  verify : String → String → Bool

/-- Result of `create_sync_session`: the requests issued, whether a local
`SyncSession` row was persisted (`SyncSession.objects.create`, line 166),
and the value returned or exception raised. -/
structure NegoOutcome where
  trace : List NegoReq
  sessionPersisted : Bool
  result : Except Err Unit

/-- `NetworkSyncConnection.create_sync_session`: reuse an active session if
one exists; otherwise fetch the certificate chain if needed, obtain a nonce,
`POST /syncsessions`, verify the response signature on `"nonce:id"` under
the server certificate, and only on success persist the local `SyncSession`
(the chunk-size validation of the returned `SyncClient` is `clientInit`). -/
def createSyncSession (sessionId : String) (env : NegoEnv) : NegoOutcome :=
  if env.activeSessionExists then ⟨[], false, .ok ()⟩
  else
    let chain : List NegoReq := if env.serverCertKnown then [] else [.getCertChain]
    let message := env.nonce ++ ":" ++ sessionId
    if env.verify message env.respSignature then
      ⟨chain ++ [.postNonce, .postSyncSession], true, .ok ()⟩
    else
      ⟨chain ++ [.postNonce, .postSyncSession], false, .error .certSignatureInvalid⟩

/-! ## Concrete fixtures used by counterexamples and witnesses -/

/-- An environment in which every peer request succeeds trivially. -/
def allOkEnv : Env :=
  { clientFsic := "cf", queuedPks := [],
    createTransferResult := .ok ⟨.noneV, none⟩,
    patchResult := .ok (), postBuffersResult := fun _ => .ok (),
    getBuffersResult := fun _ => .ok [], deleteTransferResult := .ok (),
    deleteSyncResult := .ok () }

/-- A client bound to sync session 1 with chunk size 500 and an empty local
database. -/
def emptySt : ClientState :=
  { ssId := 1, ssActive := true, chunkSize := 500, current := none,
    tsRows := [], bufRows := [], rmcbRows := [] }

/-- An active pull transfer session mid-pull: 300 records to fetch, none
transferred yet. -/
def pullTs300 : TS :=
  { id := 1, filterStr := "f", push := false, active := true,
    records_total := some 300, records_transferred := 0, stage := .pulling,
    server_fsic := "sf", client_fsic := "cf" }

/-- State resuming `pullTs300`. -/
def pullSt300 : ClientState := { emptySt with current := some pullTs300, tsRows := [pullTs300] }

/-- Environment whose pull chunks return the 300 available records at once. -/
def pullEnv300 : Env := { allOkEnv with getBuffersResult := fun _ => .ok (List.range 300) }

/-- An active pull transfer session on filter "f" (candidate for resumption). -/
def tsPullF : TS :=
  { id := 1, filterStr := "f", push := false, active := true,
    records_total := some 10, records_transferred := 0, stage := .pulling,
    server_fsic := "sf", client_fsic := "cf" }

/-- A second, abandoned active push transfer session on filter "g" with a
buffered row. -/
def tsPushG : TS :=
  { id := 2, filterStr := "g", push := true, active := true,
    records_total := some 1, records_transferred := 0, stage := .pushing,
    server_fsic := "sf", client_fsic := "cf" }

/-- State with both transfer sessions active and a buffered row owned by the
abandoned one. -/
def twoActiveSt : ClientState :=
  { emptySt with tsRows := [tsPullF, tsPushG], bufRows := [⟨2, 0⟩] }

/-- Environment whose `POST /transfersessions` fails with an HTTP error. -/
def createFailsEnv : Env := { allOkEnv with createTransferResult := .error .http }

/-- State with an open (current) transfer session, for `close_sync_session`. -/
def openTransferSt : ClientState := { emptySt with current := some tsPullF, tsRows := [tsPullF] }

/-- Environment for an empty pull: the server reports zero queued records. -/
def zeroPullEnv : Env := { allOkEnv with createTransferResult := .ok ⟨.str "sf", some 0⟩ }

/-- An active push transfer session about to push 1500 queued records. -/
def pushTs1500 : TS :=
  { id := 1, filterStr := "f", push := true, active := true,
    records_total := some 1500, records_transferred := 0, stage := .pushing,
    server_fsic := "sf", client_fsic := "cf" }

/-- State holding `pushTs1500` and its 1500 buffered rows (primary keys
0..1499). -/
def pushSt1500 : ClientState :=
  { emptySt with current := some pushTs1500, tsRows := [pushTs1500],
                 bufRows := (List.range 1500).map (fun p => ⟨1, p⟩), rmcbRows := [1] }

/-! ## Transport lemmas -/

/-- Splitting off the head of a shifted sleep schedule. -/
theorem rangeMapShift (t i n : Nat) :
    (List.range (n + 1)).map (fun j => t * (i + j))
      = t * i :: (List.range n).map (fun j => t * (i + 1 + j)) := by
  rw [List.range_succ_eq_map, List.map_cons, List.map_map]
  simp only [Nat.add_zero]
  congr 1
  apply List.map_congr_left
  intro j _
  simp only [Function.comp, Nat.succ_eq_add_one]
  ring

/-- Exhausting all remaining attempts on connection failures yields
`ConnectionError`, sleeping `timeout * index` after each failed attempt. -/
theorem requestAux_allFail (net : Nat → NetOutcome) (t : Nat) :
    ∀ (fuel i : Nat), (∀ j, j < fuel → net (i + j) = .connFail) →
      requestAux net t i fuel
        = (.connectionError, (List.range fuel).map (fun j => t * (i + j))) := by
  intro fuel
  induction fuel with
  | zero => intro i _; rfl
  | succ n ih =>
    intro i h
    have h0 : net i = .connFail := by simpa using h 0 (Nat.succ_pos n)
    have hrec := ih (i + 1) (fun j hj => by
      have := h (j + 1) (Nat.succ_lt_succ hj)
      simpa [Nat.add_assoc, Nat.add_comm 1 j] using this)
    rw [rangeMapShift]
    simp only [requestAux, h0, hrec]

/-- The first attempt that gets a response ends the loop: a 2xx response is
returned, any other response raises immediately, and only the earlier
connection failures contributed sleeps. -/
theorem requestAux_firstResp (net : Nat → NetOutcome) (t : Nat) :
    ∀ (k fuel i s b : Nat), k < fuel → (∀ j, j < k → net (i + j) = .connFail) →
      net (i + k) = .resp s b →
      requestAux net t i fuel
        = ((if is2xx s then .ok s b else .httpError s),
           (List.range k).map (fun j => t * (i + j))) := by
  intro k
  induction k with
  | zero =>
    intro fuel i s b hk _ hresp
    match fuel, hk with
    | fuel' + 1, _ =>
      have h0 : net i = .resp s b := by simpa using hresp
      simp only [requestAux, h0]
      split <;> simp
  | succ n ih =>
    intro fuel i s b hk hfail hresp
    match fuel, hk with
    | fuel' + 1, hk =>
      have h0 : net i = .connFail := by simpa using hfail 0 (Nat.succ_pos n)
      have hrec := ih fuel' (i + 1) s b (Nat.lt_of_succ_lt_succ hk)
        (fun j hj => by
          have := hfail (j + 1) (Nat.succ_lt_succ hj)
          simpa [Nat.add_assoc, Nat.add_comm 1 j] using this)
        (by simpa [Nat.add_assoc, Nat.add_comm 1 n] using hresp)
      rw [rangeMapShift]
      simp only [requestAux, h0, hrec]

/-- C5: for every Transport request, a non-2xx HTTP response is surfaced
immediately as an HTTPStatus error without any retry; a transient connection
failure is retried, attempting at most `maxRetries` times (default 5) with a
sleep of `timeout * i` seconds after failed attempt `i` (0-indexed); the
first 2xx response is returned; and exhausting all retries raises
ConnectionError. -/
theorem C5_transport_retry_policy (net : Nat → NetOutcome) (timeout maxRetries : Nat) :
    ((∀ i, i < maxRetries → net i = .connFail) →
      request net timeout maxRetries
        = (.connectionError, (List.range maxRetries).map (fun i => timeout * i)))
  ∧ (∀ k s b, k < maxRetries → (∀ j, j < k → net j = .connFail) → net k = .resp s b →
      request net timeout maxRetries
        = ((if is2xx s then .ok s b else .httpError s),
           (List.range k).map (fun i => timeout * i))) := by
  constructor
  · intro h
    have := requestAux_allFail net timeout maxRetries 0 (fun j hj => by simpa using h j hj)
    simpa [request] using this
  · intro k s b hk hfail hresp
    have := requestAux_firstResp net timeout k maxRetries 0 s b hk
      (fun j hj => by simpa using hfail j hj) (by simpa using hresp)
    simpa [request] using this

/-- Witness for C5: two connection failures then a 204 response, with default
retry settings; the loop returns the response after sleeping 0 and 3
seconds. -/
theorem C5_transport_retry_policy_witness :
    request (fun i => if i < 2 then .connFail else .resp 204 7) 3 5 = (.ok 204 7, [0, 3]) := by
  have h := (C5_transport_retry_policy (fun i => if i < 2 then .connFail else .resp 204 7) 3 5).2
    2 204 7 (by decide) (fun j hj => by interval_cases j <;> rfl) (by rfl)
  exact h.trans (by decide)

/-- C6 counterexample: `chunk_size = 0` is not a positive multiple of 100,
yet the constructor accepts it, so "fails iff not a positive multiple of
100" is false at 0. -/
theorem C6_counterexample :
    clientInit 0 = .ok () ∧ (0 : Int) % 100 = 0 ∧ ¬ (0 < (0 : Int)) := by decide

/-- C6 (amended): constructing the controller fails with InvalidArgument iff
`chunk_size % 100 ≠ 0` — any multiple of 100, including zero and negative
multiples, is accepted, so an accepted chunk size need not be positive; in
particular `chunk_size = 250` is rejected. -/
theorem C6_chunk_size_validation (c : Int) :
    (clientInit c = .error .morangoError ↔ ¬ c % 100 = 0)
  ∧ clientInit 250 = .error .morangoError
  ∧ clientInit 0 = .ok ()
  ∧ clientInit (-100) = .ok () := by
  refine ⟨?_, by decide, by decide, by decide⟩
  by_cases h : c % 100 = 0 <;> simp [clientInit, h]

/-! ## Cursor lemmas -/

/-- The pull-loop cursor never decreases. -/
theorem pullCursors_chain (chunk total : Nat) :
    ∀ (fuel rt : Nat), List.Chain' (· ≤ ·) (rt :: pullCursors chunk total fuel rt) := by
  intro fuel
  induction fuel with
  | zero => intro rt; simp [pullCursors]
  | succ n ih =>
    intro rt
    by_cases h : rt < total
    · have hstep := ih (rt + chunk)
      simp only [pullCursors, h, if_true, List.chain'_cons]
      exact ⟨Nat.le_add_right rt chunk, hstep⟩
    · simp [pullCursors, h]

/-- Every pull-loop cursor value stays below `total + chunk`: a chunk is only
requested while the cursor is `< total`, and each advance adds `chunk`. -/
theorem pullCursors_lt (chunk total : Nat) :
    ∀ (fuel rt : Nat), ∀ v ∈ pullCursors chunk total fuel rt, v < total + chunk := by
  intro fuel
  induction fuel with
  | zero => intro rt v hv; simp [pullCursors] at hv
  | succ n ih =>
    intro rt v hv
    by_cases h : rt < total
    · simp only [pullCursors, h, if_true, List.mem_cons] at hv
      rcases hv with rfl | hv
      · omega
      · exact ih (rt + chunk) v hv
    · simp [pullCursors, h] at hv

/-- When the chunk size divides both the total and the cursor, the pull-loop
cursor never exceeds the total. -/
theorem pullCursors_le_of_dvd (chunk total : Nat) (hT : chunk ∣ total) :
    ∀ (fuel rt : Nat), chunk ∣ rt →
      ∀ v ∈ pullCursors chunk total fuel rt, v ≤ total := by
  intro fuel
  induction fuel with
  | zero => intro rt _ v hv; simp [pullCursors] at hv
  | succ n ih =>
    intro rt hrt v hv
    by_cases h : rt < total
    · simp only [pullCursors, h, if_true, List.mem_cons] at hv
      have hdiff : chunk ∣ (total - rt) := Nat.dvd_sub' hT hrt
      have hchunk : chunk ≤ total - rt := Nat.le_of_dvd (by omega) hdiff
      rcases hv with rfl | hv
      · omega
      · exact ih (rt + chunk) (Dvd.dvd.add hrt dvd_rfl) v hv
    · simp [pullCursors, h] at hv

/-- The push-loop cursor never decreases. -/
theorem pushCursorsAux_chain (chunk : Nat) :
    ∀ (n rt : Nat), List.Chain' (· ≤ ·) (rt :: pushCursorsAux chunk n rt) := by
  intro n
  induction n with
  | zero => intro rt; simp [pushCursorsAux]
  | succ m ih =>
    intro rt
    have hstep := ih (rt + chunk)
    simp only [pushCursorsAux, List.chain'_cons]
    exact ⟨Nat.le_add_right rt chunk, hstep⟩

/-- Every push-loop cursor value is bounded by the initial cursor plus one
chunk per remaining page. -/
theorem pushCursorsAux_le (chunk : Nat) :
    ∀ (n rt : Nat), ∀ v ∈ pushCursorsAux chunk n rt, v ≤ rt + chunk * n := by
  intro n
  induction n with
  | zero => intro rt v hv; simp [pushCursorsAux] at hv
  | succ m ih =>
    intro rt v hv
    simp only [pushCursorsAux, List.mem_cons] at hv
    rcases hv with rfl | hv
    · nlinarith [Nat.zero_le (chunk * m)]
    · have := ih (rt + chunk) v hv
      have hm : rt + chunk + chunk * m = rt + chunk * (m + 1) := by ring
      omega

/-- The cursor is bounded by `chunk` times its page ceiling. -/
theorem le_chunk_mul_ceilDiv (rt chunk : Nat) (hc : 0 < chunk) :
    rt ≤ chunk * ceilDiv rt chunk := by
  unfold ceilDiv
  have hdm := Nat.div_add_mod (rt + chunk - 1) chunk
  have hlt : (rt + chunk - 1) % chunk < chunk := Nat.mod_lt _ hc
  omega

/-- `chunk * num_pages` overshoots the record count by less than one chunk. -/
theorem chunk_mul_numPages_lt (count chunk : Nat) (hc : 0 < chunk) (h0 : 0 < count) :
    chunk * numPages count chunk < count + chunk := by
  unfold numPages ceilDiv
  rw [if_neg (by omega)]
  have hmul : (count + chunk - 1) / chunk * chunk ≤ count + chunk - 1 :=
    Nat.div_mul_le_self _ _
  have hcomm : chunk * ((count + chunk - 1) / chunk) = (count + chunk - 1) / chunk * chunk :=
    Nat.mul_comm _ _
  omega

/-- C1 counterexample: a pull with `records_total = 300` and
`chunk_size = 500` finishes its chunk loop with
`records_transferred = 500 > 300`, so "`records_transferred` never exceeds
`records_total`" fails on the final chunk. -/
theorem C1_counterexample :
    (pullRecords pullSt300 pullEnv300).result = .ok ()
  ∧ (pullRecords pullSt300 pullEnv300).state.current.map (·.records_transferred) = some 500
  ∧ (pullRecords pullSt300 pullEnv300).state.current.map (·.records_total) = some (some 300)
  ∧ ¬ (500 ≤ 300) := by decide

/-- C1 (amended): `records_transferred` is monotonically non-decreasing
across every chunk step and resume in both the pull and the push chunk loop,
and it stays `≤ records_total` at every point where a chunk is requested;
after the final chunk it may exceed `records_total` by up to
`chunk_size - 1` (never more), and it never exceeds `records_total` when
`chunk_size` divides both `records_total` and the resumed cursor. -/
theorem C1_cursor_monotone_bounded (chunk total rt0 fuel count : Nat) (hc : 0 < chunk) :
    List.Chain' (· ≤ ·) (rt0 :: pullCursors chunk total fuel rt0)
  ∧ (∀ v ∈ pullCursors chunk total fuel rt0, v < total + chunk)
  ∧ (chunk ∣ total → chunk ∣ rt0 → ∀ v ∈ pullCursors chunk total fuel rt0, v ≤ total)
  ∧ List.Chain' (· ≤ ·) (rt0 :: pushCursors count chunk rt0)
  ∧ (0 < count → ∀ v ∈ pushCursors count chunk rt0, v < count + chunk) := by
  refine ⟨pullCursors_chain chunk total fuel rt0, pullCursors_lt chunk total fuel rt0,
    fun hT hrt => pullCursors_le_of_dvd chunk total hT fuel rt0 hrt,
    pushCursorsAux_chain chunk _ rt0, fun h0 v hv => ?_⟩
  have hle := pushCursorsAux_le chunk (numPages count chunk + 1 - (ceilDiv rt0 chunk + 1)) rt0 v hv
  by_cases hp : ceilDiv rt0 chunk + 1 ≤ numPages count chunk + 1
  · have hrt := le_chunk_mul_ceilDiv rt0 chunk hc
    have hnp := chunk_mul_numPages_lt count chunk hc h0
    have hmul : chunk * (ceilDiv rt0 chunk
        + (numPages count chunk + 1 - (ceilDiv rt0 chunk + 1)))
        ≤ chunk * numPages count chunk := Nat.mul_le_mul_left chunk (by omega)
    rw [Nat.mul_add] at hmul
    omega
  · have hz : numPages count chunk + 1 - (ceilDiv rt0 chunk + 1) = 0 := by omega
    unfold pushCursors at hv
    rw [hz] at hv
    simp [pushCursorsAux] at hv

/-- Witness for C1's amended theorem at `chunk_size = 500`,
`records_total = 1200`, resumed cursor 500, 1500 buffered records. -/
theorem C1_cursor_monotone_bounded_witness :
    List.Chain' (· ≤ ·) (500 :: pullCursors 500 1200 1201 500)
  ∧ (∀ v ∈ pullCursors 500 1200 1201 500, v < 1200 + 500) := by
  have h := C1_cursor_monotone_bounded 500 1200 500 1201 1500 (by decide)
  exact ⟨h.1, h.2.1⟩

/-! ## Resume behaviour (`_starting`) -/

/-- C2 counterexample: resuming a *pull* (`initiate_pull` on filter "f")
adopts the matching active TransferSession as current but leaves the other
active TransferSession (id 2) active and its buffered row in place — the
deactivate-and-purge step exists only in the push branch, so the claim fails
for the pull direction. -/
theorem C2_counterexample :
    (starting twoActiveSt "f" false 99 allOkEnv).state.current = some tsPullF
  ∧ (starting twoActiveSt "f" false 99 allOkEnv).result = .ok (some ⟨1, "f", false, "cf"⟩)
  ∧ tsPushG ∈ (starting twoActiveSt "f" false 99 allOkEnv).state.tsRows
  ∧ tsPushG.active = true
  ∧ (⟨2, 0⟩ : BufferRow) ∈ (starting twoActiveSt "f" false 99 allOkEnv).state.bufRows := by
  decide

/-- C2 (amended): when `initiate_push` resumes, the matching active
TransferSession is adopted as current, every other active TransferSession
under the SyncSession is deactivated, and buffered rows of all other
transfer sessions of this SyncSession are purged; when `initiate_pull`
resumes, the matching session is only adopted as current — the other active
sessions and their buffered rows are left untouched. -/
theorem C2_resume_behavior
    (stP : ClientState) (fltP : String) (idP : Nat) (envP : Env) (tP : TS) (restP : List TS)
    (stL : ClientState) (fltL : String) (idL : Nat) (envL : Env) (tL : TS) (restL : List TS)
    (hP : matchingTransfers stP fltP true = tP :: restP)
    (hL : matchingTransfers stL fltL false = tL :: restL) :
    ((starting stP fltP true idP envP).result = .ok none
    ∧ (starting stP fltP true idP envP).state.current = some tP
    ∧ (∀ r ∈ (starting stP fltP true idP envP).state.tsRows, r.id ≠ tP.id → r.active = false)
    ∧ (∀ b ∈ (starting stP fltP true idP envP).state.bufRows,
         b.tsId = tP.id ∨ b.tsId ∉ stP.tsRows.map (·.id)))
  ∧ ((starting stL fltL false idL envL).state.current = some tL
    ∧ (starting stL fltL false idL envL).state.tsRows = stL.tsRows
    ∧ (starting stL fltL false idL envL).state.bufRows = stL.bufRows) := by
  constructor
  · refine ⟨by simp [starting, hP], by simp [starting, hP], ?_, ?_⟩
    · intro r hr hid
      simp [starting, hP] at hr
      obtain ⟨r0, hr0, heq⟩ := hr
      by_cases hcond : r0.active = true ∧ ¬ r0.id = tP.id
      · rw [if_pos hcond] at heq
        rw [← heq]
      · rw [if_neg hcond] at heq
        subst heq
        cases hact : r0.active with
        | false => rfl
        | true => exact absurd ⟨hact, hid⟩ hcond
    · intro b hb
      simp [starting, hP] at hb
      obtain ⟨-, hnot⟩ := hb
      by_cases heq : b.tsId = tP.id
      · exact Or.inl heq
      · refine Or.inr fun hmem => ?_
        simp only [List.mem_map] at hmem
        obtain ⟨x, hx, hxid⟩ := hmem
        have hxt : ¬ x.id = tP.id := by rw [hxid]; exact heq
        exact hnot x hx hxt hxid
  · exact ⟨by simp [starting, hL], by simp [starting, hL], by simp [starting, hL]⟩

/-- Witness for C2's amended theorem on `twoActiveSt`: a resumed push on
filter "g" adopts session 2, a resumed pull on filter "f" adopts
session 1. -/
theorem C2_resume_behavior_witness :
    matchingTransfers twoActiveSt "g" true = [tsPushG]
  ∧ matchingTransfers twoActiveSt "f" false = [tsPullF]
  ∧ (starting twoActiveSt "g" true 99 allOkEnv).state.current = some tsPushG
  ∧ (starting twoActiveSt "f" false 99 allOkEnv).state.current = some tsPullF := by
  have h := C2_resume_behavior twoActiveSt "g" 99 allOkEnv tsPushG []
    twoActiveSt "f" 99 allOkEnv tsPullF [] (by decide) (by decide)
  exact ⟨by decide, by decide, h.1.2.1, h.2.1⟩

/-- C3: the STARTING push branch's HTTP-error path is a latent bug — on a
fresh push (no active matching TransferSession, `current_transfer_session`
still `None`), a failing `POST /transfersessions` makes the handler
dereference `None`, so an `AttributeError` surfaces instead of the HTTP
error; the spec's intended behaviour (mark inactive only if a session
exists, propagate the HTTP error) is not what the code does. -/
theorem C3_starting_error_path_bug :
    emptySt.current = none
  ∧ (initiatePush emptySt "f" 7 createFailsEnv).trace = [.postTransferSession]
  ∧ (initiatePush emptySt "f" 7 createFailsEnv).result = .error .noneDereference
  ∧ (initiatePush emptySt "f" 7 createFailsEnv).result ≠ .error .httpError := by decide

/-! ## close_sync_session -/

/-- C4 counterexample: with a non-empty `current_transfer_session`,
`close_sync_session` does fail with TransferSessionOpen and does leave the
local SyncSession active, but the `DELETE /syncsessions` request has already
been issued to the peer — the check happens only after the remote call, so
"no DELETE request is issued" is false. -/
theorem C4_counterexample :
    (closeSyncSession openTransferSt allOkEnv).result = .error .morangoError
  ∧ Request.deleteSyncSession 1 ∈ (closeSyncSession openTransferSt allOkEnv).trace
  ∧ (closeSyncSession openTransferSt allOkEnv).state.ssActive = true := by decide

/-- C4 (amended): if `close_sync_session` is called while
`current_transfer_session` is non-empty, the `DELETE /syncsessions` request
is issued to the peer first, after which the call fails with
TransferSessionOpen and the local state — in particular the active
SyncSession — is left unchanged. -/
theorem C4_close_refused_after_delete (st : ClientState) (env : Env) (c : TS)
    (hcur : st.current = some c) (hok : env.deleteSyncResult = .ok ()) :
    (closeSyncSession st env).result = .error .morangoError
  ∧ (closeSyncSession st env).trace = [.deleteSyncSession st.ssId]
  ∧ (closeSyncSession st env).state = st := by
  simp [closeSyncSession, hcur, hok]

/-- Witness for C4's amended theorem on `openTransferSt`. -/
theorem C4_close_refused_after_delete_witness :
    (closeSyncSession openTransferSt allOkEnv).result = .error .morangoError
  ∧ (closeSyncSession openTransferSt allOkEnv).trace = [.deleteSyncSession 1]
  ∧ (closeSyncSession openTransferSt allOkEnv).state = openTransferSt := by
  have h := C4_close_refused_after_delete openTransferSt allOkEnv tsPullF (by decide) (by decide)
  exact ⟨h.1, h.2.1, h.2.2⟩

/-! ## Zero-record short-circuit -/

/-- Persisting a mutated row whose id matches the freshly appended row only
rewrites that appended row. -/
theorem saveTS_append (rows : List TS) (t u : TS) (i : Nat)
    (hid : ∀ r ∈ rows, r.id ≠ i) (ht : t.id = i) (hu : u.id = i) :
    saveTS (rows ++ [t]) u = rows ++ [u] := by
  unfold saveTS
  rw [List.map_append]
  congr 1
  · conv_rhs => rw [← List.map_id rows]
    apply List.map_congr_left
    intro r hr
    rw [if_neg (by rw [hu]; exact hid r hr)]
    rfl
  · simp [ht, hu]

/-- C7: if `records_total` equals 0 after the QUEUING stage, `initiate_push`
and `initiate_pull` close the transfer session immediately (active false,
stage completed, current slot cleared) and skip the pushing/pulling and
dequeuing stages: besides the creation POST and the closing DELETE no
request is made — in particular no `PATCH /transfersessions` and no
`/buffers` request. -/
theorem C7_zero_records_short_circuit
    (stA : ClientState) (fltA : String) (idA : Nat) (envA : Env) (rA : CreateTransferResp)
    (stB : ClientState) (fltB : String) (idB : Nat) (envB : Env) (vB : PyStr)
    (hA1 : matchingTransfers stA fltA true = [])
    (hA2 : envA.createTransferResult = .ok rA)
    (hA3 : envA.queuedPks = [])
    (hA4 : ∀ b ∈ stA.bufRows, b.tsId ≠ idA)
    (hA5 : envA.deleteTransferResult = .ok ())
    (hA6 : ∀ r ∈ stA.tsRows, r.id ≠ idA)
    (hB1 : matchingTransfers stB fltB false = [])
    (hB2 : envB.createTransferResult = .ok ⟨vB, some 0⟩)
    (hB5 : envB.deleteTransferResult = .ok ())
    (hB6 : ∀ r ∈ stB.tsRows, r.id ≠ idB) :
    ((initiatePush stA fltA idA envA).trace
        = [.postTransferSession, .deleteTransferSession idA]
    ∧ (initiatePush stA fltA idA envA).result = .ok ()
    ∧ (initiatePush stA fltA idA envA).state.current = none
    ∧ (initiatePush stA fltA idA envA).state.tsRows
        = stA.tsRows ++
          [{ id := idA, filterStr := fltA, push := true, active := false,
             records_total := some 0, records_transferred := 0, stage := .completed,
             server_fsic := fsicOrDefault rA.server_fsic, client_fsic := envA.clientFsic }]
    ∧ (∀ tot, Request.patchTransferSession tot ∉ (initiatePush stA fltA idA envA).trace)
    ∧ (∀ pks, Request.postBuffers pks ∉ (initiatePush stA fltA idA envA).trace))
  ∧ ((initiatePull stB fltB idB envB).trace
        = [.postTransferSession, .deleteTransferSession idB]
    ∧ (initiatePull stB fltB idB envB).result = .ok ()
    ∧ (initiatePull stB fltB idB envB).state.current = none
    ∧ (initiatePull stB fltB idB envB).state.tsRows
        = stB.tsRows ++
          [{ id := idB, filterStr := fltB, push := false, active := false,
             records_total := some 0, records_transferred := 0, stage := .completed,
             server_fsic := fsicOrDefault vB, client_fsic := envB.clientFsic }]
    ∧ (∀ l o, Request.getBuffers l o ∉ (initiatePull stB fltB idB envB).trace)) := by
  have hfil : List.filter (fun b => b.tsId == idA) stA.bufRows = [] := by
    rw [List.filter_eq_nil_iff]
    intro b hb
    simpa using hA4 b hb
  have htrA : (initiatePush stA fltA idA envA).trace
      = [.postTransferSession, .deleteTransferSession idA] := by
    simp [initiatePush, starting, hA1, hA2, hA3, queuing, closeTransfer, createTS, hA5, hfil]
  have htrB : (initiatePull stB fltB idB envB).trace
      = [.postTransferSession, .deleteTransferSession idB] := by
    simp [initiatePull, starting, hB1, hB2, queuing, closeTransfer, createTS, hB5]
  refine ⟨⟨htrA, ?_, ?_, ?_, ?_, ?_⟩, htrB, ?_, ?_, ?_, ?_⟩
  · simp [initiatePush, starting, hA1, hA2, hA3, queuing, closeTransfer, createTS, hA5, hfil]
  · simp [initiatePush, starting, hA1, hA2, hA3, queuing, closeTransfer, createTS, hA5, hfil]
  · simp [initiatePush, starting, hA1, hA2, hA3, queuing, closeTransfer, createTS, hA5, hfil]
    rw [saveTS_append stA.tsRows _ _ idA hA6 rfl rfl,
      saveTS_append stA.tsRows _ _ idA hA6 rfl rfl]
  · intro tot
    rw [htrA]
    simp
  · intro pks
    rw [htrA]
    simp
  · simp [initiatePull, starting, hB1, hB2, queuing, closeTransfer, createTS, hB5]
  · simp [initiatePull, starting, hB1, hB2, queuing, closeTransfer, createTS, hB5]
  · simp [initiatePull, starting, hB1, hB2, queuing, closeTransfer, createTS, hB5]
    rw [saveTS_append stB.tsRows _ _ idB hB6 rfl rfl,
      saveTS_append stB.tsRows _ _ idB hB6 rfl rfl]
  · intro l o
    rw [htrB]
    simp

/-- Witness for C7: an empty push (Store Engine queues nothing) and an empty
pull (server reports zero records) from a fresh client state. -/
theorem C7_zero_records_short_circuit_witness :
    (initiatePush emptySt "f" 7 allOkEnv).trace
        = [.postTransferSession, .deleteTransferSession 7]
  ∧ (initiatePush emptySt "f" 7 allOkEnv).result = .ok ()
  ∧ (initiatePush emptySt "f" 7 allOkEnv).state.current = none
  ∧ (initiatePull emptySt "f" 7 zeroPullEnv).trace
        = [.postTransferSession, .deleteTransferSession 7]
  ∧ (initiatePull emptySt "f" 7 zeroPullEnv).result = .ok ()
  ∧ (initiatePull emptySt "f" 7 zeroPullEnv).state.current = none := by
  have h := C7_zero_records_short_circuit emptySt "f" 7 allOkEnv ⟨.noneV, none⟩
    emptySt "f" 7 zeroPullEnv (.str "sf")
    (by decide) rfl rfl (by simp [emptySt]) rfl (by simp [emptySt])
    (by decide) rfl rfl (by simp [emptySt])
  exact ⟨h.1.1, h.1.2.1, h.1.2.2.1, h.2.1, h.2.2.1, h.2.2.2.1⟩

/-! ## Push pagination -/

/-- Page loop invariant: when every `POST /buffers` succeeds, the loop sends
exactly one request per page number — each carrying that page of the
pk-sorted records — and advances the cursor by one chunk per page, leaving
the buffer tables untouched. -/
theorem pushPages_ok (env : Env) (per : Nat) (pks : List Nat)
    (hall : ∀ k, env.postBuffersResult k = .ok ()) :
    ∀ (pages : List Nat) (st : ClientState) (c : TS), st.current = some c →
      (pushPages env per pks pages st).trace
          = pages.map (fun k => Request.postBuffers (pagePks pks per k))
      ∧ (pushPages env per pks pages st).result = .ok ()
      ∧ (pushPages env per pks pages st).state.current
          = some { c with records_transferred := c.records_transferred + per * pages.length }
      ∧ (pushPages env per pks pages st).state.bufRows = st.bufRows
      ∧ (pushPages env per pks pages st).state.rmcbRows = st.rmcbRows
      ∧ (pushPages env per pks pages st).state.chunkSize = st.chunkSize := by
  intro pages
  induction pages with
  | nil =>
    intro st c hcur
    simp [pushPages, hcur]
  | cons k ks ih =>
    intro st c hcur
    have hk := hall k
    have hrec := ih
      { st with current := some { c with records_transferred := c.records_transferred + per },
                tsRows := saveTS st.tsRows
                  { c with records_transferred := c.records_transferred + per } }
      { c with records_transferred := c.records_transferred + per } rfl
    simp only [pushPages, hcur, hk, List.map_cons, List.length_cons]
    refine ⟨?_, ?_, ?_, ?_, ?_, ?_⟩
    · rw [hrec.1]
    · exact hrec.2.1
    · rw [hrec.2.2.1]
      congr 2
      ring
    · exact hrec.2.2.2.1
    · exact hrec.2.2.2.2.1
    · exact hrec.2.2.2.2.2

/-- `_push_records` under an all-successful environment: the requests are the
pages `ceil(records_transferred / chunk_size) + 1 .. num_pages` of the
pk-sorted buffered records of the current transfer session, and the cursor
ends at `records_transferred + chunk_size * (number of pages sent)`. -/
theorem pushRecords_spec (st : ClientState) (env : Env) (c : TS)
    (hcur : st.current = some c)
    (hall : ∀ k, env.postBuffersResult k = .ok ()) :
    (pushRecords st env).trace
        = (List.range' (ceilDiv c.records_transferred st.chunkSize + 1)
            (numPages ((sortByPk (st.bufRows.filter (fun b => b.tsId == c.id))).map (·.pk)).length
                st.chunkSize + 1 - (ceilDiv c.records_transferred st.chunkSize + 1))).map
          (fun k => Request.postBuffers
            (pagePks ((sortByPk (st.bufRows.filter (fun b => b.tsId == c.id))).map (·.pk))
              st.chunkSize k))
    ∧ (pushRecords st env).result = .ok ()
    ∧ (pushRecords st env).state.current
        = some { c with records_transferred := c.records_transferred
            + st.chunkSize * (numPages ((sortByPk (st.bufRows.filter
                  (fun b => b.tsId == c.id))).map (·.pk)).length st.chunkSize + 1
                - (ceilDiv c.records_transferred st.chunkSize + 1)) }
    ∧ (pushRecords st env).state.bufRows = st.bufRows
    ∧ (pushRecords st env).state.rmcbRows = st.rmcbRows := by
  have h := pushPages_ok env st.chunkSize
    ((sortByPk (st.bufRows.filter (fun b => b.tsId == c.id))).map (·.pk)) hall
    (List.range' (ceilDiv c.records_transferred st.chunkSize + 1)
      (numPages ((sortByPk (st.bufRows.filter (fun b => b.tsId == c.id))).map (·.pk)).length
          st.chunkSize + 1 - (ceilDiv c.records_transferred st.chunkSize + 1)))
    st c hcur
  rw [List.length_range'] at h
  simp only [pushRecords, hcur]
  exact ⟨h.1, h.2.1, h.2.2.1, h.2.2.2.1, h.2.2.2.2.1⟩

/-- Inserting below the head of a pk-sorted list keeps it in place. -/
theorem insertByPk_le (b c : BufferRow) (cs : List BufferRow) (h : b.pk ≤ c.pk) :
    insertByPk b (c :: cs) = b :: c :: cs := by
  simp [insertByPk, h]

/-- Sorting a list already ordered by primary key is the identity. -/
theorem sortByPk_sorted (l : List BufferRow)
    (h : List.Chain' (fun a b => a.pk ≤ b.pk) l) : sortByPk l = l := by
  induction l with
  | nil => rfl
  | cons b bs ih =>
    rw [sortByPk, ih h.tail]
    cases bs with
    | nil => rfl
    | cons c cs => exact insertByPk_le b c cs (List.chain'_cons.mp h).1

/-- Dropping from an arithmetic range shifts its start. -/
theorem range'_drop : ∀ (m n s : Nat), (List.range' s n).drop m = List.range' (s + m) (n - m) := by
  intro m
  induction m with
  | zero => intro n s; simp
  | succ k ih =>
    intro n s
    cases n with
    | zero => simp
    | succ q =>
      rw [List.range'_succ, List.drop_succ_cons, ih q (s + 1)]
      congr 1 <;> omega

/-- Taking from an arithmetic range truncates its length. -/
theorem range'_take : ∀ (m n s : Nat), (List.range' s n).take m = List.range' s (min m n) := by
  intro m
  induction m with
  | zero => intro n s; simp
  | succ k ih =>
    intro n s
    cases n with
    | zero => simp
    | succ q =>
      rw [List.range'_succ, List.take_succ_cons, ih q (s + 1)]
      have : min (k + 1) (q + 1) = min k q + 1 := by omega
      rw [this, List.range'_succ]

/-- The 1500 buffered rows of `pushSt1500` sort to the pk sequence 0..1499. -/
theorem sorted1500 :
    (sortByPk (pushSt1500.bufRows.filter (fun b => b.tsId == pushTs1500.id))).map (fun b => b.pk)
      = List.range 1500 := by
  have hfil : pushSt1500.bufRows.filter (fun b => b.tsId == pushTs1500.id)
      = pushSt1500.bufRows := by
    rw [List.filter_eq_self]
    intro b hb
    have hb' : b ∈ (List.range 1500).map (fun p => (⟨1, p⟩ : BufferRow)) := hb
    obtain ⟨p, -, rfl⟩ := List.mem_map.mp hb'
    rfl
  rw [hfil]
  have hrows : pushSt1500.bufRows = (List.range 1500).map (fun p => (⟨1, p⟩ : BufferRow)) := rfl
  rw [hrows]
  have hchain : List.Chain' (fun a b : BufferRow => a.pk ≤ b.pk)
      ((List.range 1500).map (fun p => (⟨1, p⟩ : BufferRow))) := by
    rw [List.chain'_map]
    exact (List.chain'_range_succ (fun a b => a ≤ b) 1499).mpr (fun m _ => Nat.le_succ m)
  rw [sortByPk_sorted _ hchain, List.map_map]
  have hcomp : ((fun b : BufferRow => b.pk) ∘ fun p => (⟨1, p⟩ : BufferRow)) = fun p => p := rfl
  rw [hcomp, List.map_id']

/-- Page 1 of 0..1499 with 500 records per page. -/
theorem pagePks1 : pagePks (List.range 1500) 500 1 = List.range' 0 500 := by
  unfold pagePks
  rw [List.range_eq_range', range'_drop, range'_take]
  norm_num

/-- Page 2 of 0..1499 with 500 records per page. -/
theorem pagePks2 : pagePks (List.range 1500) 500 2 = List.range' 500 500 := by
  unfold pagePks
  rw [List.range_eq_range', range'_drop, range'_take]
  norm_num

/-- Page 3 of 0..1499 with 500 records per page. -/
theorem pagePks3 : pagePks (List.range 1500) 500 3 = List.range' 1000 500 := by
  unfold pagePks
  rw [List.range_eq_range', range'_drop, range'_take]
  norm_num

/-- C8: the push chunk loop paginates the buffered records ordered by primary
key starting at page `ceil(records_transferred / chunk_size) + 1`, and after
each successful `POST /buffers` advances `records_transferred` by
`chunk_size` and persists it; for 1500 buffered records with
`chunk_size = 500` starting from `records_transferred = 0` the PUSHING stage
issues exactly three `POST /buffers` (pages 0..499, 500..999, 1000..1499),
the cursor advances 500 → 1000 → 1500, and the `Buffer` table for the
session is empty at completion. -/
theorem C8_push_pagination (st : ClientState) (env : Env) (c : TS)
    (hcur : st.current = some c)
    (hall : ∀ k, env.postBuffersResult k = .ok ()) :
    ((pushRecords st env).trace
        = (List.range' (ceilDiv c.records_transferred st.chunkSize + 1)
            (numPages ((sortByPk (st.bufRows.filter (fun b => b.tsId == c.id))).map (·.pk)).length
                st.chunkSize + 1 - (ceilDiv c.records_transferred st.chunkSize + 1))).map
          (fun k => Request.postBuffers
            (pagePks ((sortByPk (st.bufRows.filter (fun b => b.tsId == c.id))).map (·.pk))
              st.chunkSize k))
    ∧ (pushRecords st env).result = .ok ()
    ∧ (pushRecords st env).state.current
        = some { c with records_transferred := c.records_transferred
            + st.chunkSize * (numPages ((sortByPk (st.bufRows.filter
                  (fun b => b.tsId == c.id))).map (·.pk)).length st.chunkSize + 1
                - (ceilDiv c.records_transferred st.chunkSize + 1)) })
  ∧ (pushing pushSt1500 allOkEnv).trace
      = [.patchTransferSession (some 1500), .postBuffers (List.range' 0 500),
         .postBuffers (List.range' 500 500), .postBuffers (List.range' 1000 500)]
  ∧ (pushing pushSt1500 allOkEnv).result = .ok ()
  ∧ (pushing pushSt1500 allOkEnv).state.bufRows = []
  ∧ (pushing pushSt1500 allOkEnv).state.current.map (fun t => t.records_transferred)
      = some 1500
  ∧ pushCursors 1500 500 0 = [500, 1000, 1500] := by
  have hg := pushRecords_spec st env c hcur hall
  refine ⟨⟨hg.1, hg.2.1, hg.2.2.1⟩, ?_⟩
  have hspec := pushRecords_spec pushSt1500 allOkEnv pushTs1500 rfl (fun k => rfl)
  rw [sorted1500] at hspec
  have ec : pushSt1500.chunkSize = 500 := rfl
  rw [List.length_range, ec] at hspec
  have e1 : ceilDiv pushTs1500.records_transferred 500 + 1 = 1 := by decide
  rw [e1] at hspec
  have e2 : numPages 1500 500 + 1 - 1 = 3 := by decide
  rw [e2] at hspec
  have e3 : pushTs1500.records_transferred + 500 * 3 = 1500 := by decide
  rw [e3] at hspec
  have hr : List.range' 1 3 = [1, 2, 3] := rfl
  rw [hr] at hspec
  simp only [List.map_cons, List.map_nil] at hspec
  rw [pagePks1, pagePks2, pagePks3] at hspec
  have hbuf : List.filter (fun b => !(b.tsId == pushTs1500.id)) pushSt1500.bufRows = [] := by
    rw [List.filter_eq_nil_iff]
    intro b hb
    have hb' : b ∈ (List.range 1500).map (fun p => (⟨1, p⟩ : BufferRow)) := hb
    obtain ⟨p, -, rfl⟩ := List.mem_map.mp hb'
    simp [pushTs1500]
  have hcurC : pushSt1500.current = some pushTs1500 := rfl
  have hpatch : allOkEnv.patchResult = .ok () := rfl
  have hrt : pushTs1500.records_total = some 1500 := rfl
  refine ⟨?_, ?_, ?_, ?_, ?_⟩ <;>
    simp [pushing, hcurC, hpatch, hspec.2.1, hspec.2.2.1, hspec.1, hspec.2.2.2.1, hrt, hbuf,
      pushCursors, numPages, ceilDiv, pushCursorsAux]

/-- Witness for C8 on the 1500-record scenario itself. -/
theorem C8_push_pagination_witness :
    (pushRecords pushSt1500 allOkEnv).result = .ok ()
  ∧ pushCursors 1500 500 0 = [500, 1000, 1500] := by
  have h := C8_push_pagination pushSt1500 allOkEnv pushTs1500 rfl (fun k => rfl)
  exact ⟨h.1.2.1, h.2.2.2.2.2⟩

/-! ## Session negotiation -/

/-- C9: during `create_sync_session` (with no reusable active session), if
the signature in the peer's `POST /syncsessions` response does not verify
under the server certificate's public key on the message `"nonce:id"`, the
call fails with CertificateSignatureInvalid and no local SyncSession is
persisted. -/
theorem C9_signature_verification (sid : String) (env : NegoEnv)
    (hA : env.activeSessionExists = false)
    (hV : env.verify (env.nonce ++ ":" ++ sid) env.respSignature = false) :
    (createSyncSession sid env).result = .error .certSignatureInvalid
  ∧ (createSyncSession sid env).sessionPersisted = false := by
  simp [createSyncSession, hA, hV]

/-- Witness for C9: a verifier that rejects every signature. -/
theorem C9_signature_verification_witness :
    (createSyncSession "abc" ⟨false, true, "n", "sig", fun _ _ => false⟩).result
      = .error .certSignatureInvalid
  ∧ (createSyncSession "abc" ⟨false, true, "n", "sig", fun _ _ => false⟩).sessionPersisted
      = false :=
  C9_signature_verification "abc" ⟨false, true, "n", "sig", fun _ _ => false⟩ rfl rfl

/-! ## server_fsic fallback -/

/-- A falsy `server_fsic` value is replaced by the empty JSON object. -/
theorem fsicOrDefault_of_falsy (v : PyStr) (h : v.truthy = false) :
    fsicOrDefault v = jsonEmptyObject := by
  cases v with
  | noneV => rfl
  | str s =>
    simp only [PyStr.truthy, Bool.not_eq_false'] at h
    simp [fsicOrDefault, h]

/-- C10: whenever the peer's `POST /transfersessions` response omits
`server_fsic` or returns a falsy value for it, the client stores the literal
string "\x7b\x7d" (the empty JSON object) as the TransferSession's
`server_fsic` — both in the fresh-push STARTING branch and in the pull
QUEUING branch. -/
theorem C10_server_fsic_fallback
    (st1 : ClientState) (flt : String) (newId : Nat) (env1 : Env)
    (st2 : ClientState) (env2 : Env) (c : TS) (v1 v2 : PyStr) (rt1 rt2 : Option Nat)
    (hfresh : matchingTransfers st1 flt true = [])
    (hresp1 : env1.createTransferResult = .ok ⟨v1, rt1⟩)
    (hfalsy1 : v1.truthy = false)
    (hcur : st2.current = some c)
    (hresp2 : env2.createTransferResult = .ok ⟨v2, rt2⟩)
    (hfalsy2 : v2.truthy = false) :
    (starting st1 flt true newId env1).state.current.map (·.server_fsic) = some jsonEmptyObject
  ∧ (queuing st2 false env2).state.current.map (·.server_fsic) = some jsonEmptyObject := by
  constructor
  · simp [starting, hfresh, hresp1, createTS, fsicOrDefault_of_falsy v1 hfalsy1]
  · simp [queuing, hcur, hresp2, fsicOrDefault_of_falsy v2 hfalsy2]

/-- Witness for C10: the peer returns the empty string for `server_fsic` on
the push side and omits it on the pull side. -/
theorem C10_server_fsic_fallback_witness :
    (starting emptySt "f" true 7
        { allOkEnv with createTransferResult := .ok ⟨.str "", some 5⟩ }
      ).state.current.map (·.server_fsic) = some jsonEmptyObject
  ∧ (queuing openTransferSt false { allOkEnv with createTransferResult := .ok ⟨.noneV, some 5⟩ }
      ).state.current.map (·.server_fsic) = some jsonEmptyObject := by
  have h := C10_server_fsic_fallback emptySt "f" 7
    { allOkEnv with createTransferResult := .ok ⟨.str "", some 5⟩ }
    openTransferSt { allOkEnv with createTransferResult := .ok ⟨.noneV, some 5⟩ }
    tsPullF (.str "") .noneV (some 5) (some 5)
    (by decide) rfl (by decide) (by decide) rfl (by decide)
  exact h

end Morango
